import Mathlib

/-!
Verification of the claude-flow repository specification.

Part 1 models the hybrid memory backend (StructuredStore, SemanticStore,
HybridCoordinator).  The implementation files named by the repository
(`hybrid-backend.ts`, `sqlite-backend.ts`) are not part of the shown source;
only their summary document is.  These definitions are therefore modelled
from the specification text, as marked on each declaration.

Part 2 embeds the source files that are present: the MCP registry client
stubs, the security circuit breaker, the update executor, and the IPFS
upload module.
-/

namespace ClaudeFlow

/-! ### Part 1: hybrid memory backend (modelled from the spec) -/

/-- Modelled from the spec: `MemoryEntry` of section 3 (the implementation
file `hybrid-backend.ts` is missing from the shown source).  The `namespace`
field is called `ns` because `namespace` is a Lean keyword. -/
structure MemoryEntry where
  id : Nat
  ns : String
  key : String
  content : String
  vector : Option (List Rat)
  tags : List String
  createdAt : Nat
  updatedAt : Nat
  ttl : Option Nat
deriving DecidableEq

/-- Modelled from the spec: the structured filter
`{namespace, keyPrefix?, tags?, createdAfter?, createdBefore?}` of
section 4.1, together with the explicit cross-namespace wildcard flag of
section 4.5. -/
structure StructuredFilter where
  ns : String
  allNamespaces : Bool
  keyPrefix : Option String
  tags : Option (List String)
  createdAfter : Option Nat
  createdBefore : Option Nat
deriving DecidableEq

/-- Modelled from the spec: whether an entry satisfies a structured filter.
An entry matches the namespace clause when the wildcard flag is set or the
namespaces agree (section 4.5). -/
def matchesFilter (f : StructuredFilter) (e : MemoryEntry) : Bool :=
  (f.allNamespaces || e.ns == f.ns)
    && (match f.keyPrefix with
        | none => true
        | some p => p.isPrefixOf e.key)
    && (match f.tags with
        | none => true
        | some ts => ts.all (fun t => e.tags.contains t))
    && (match f.createdAfter with
        | none => true
        | some t => decide (t ≤ e.createdAt))
    && (match f.createdBefore with
        | none => true
        | some t => decide (e.createdAt ≤ t))

/-- Modelled from the spec: entries share the `(namespace, key)` upsert
identity of section 3. -/
def sameIdentity (a b : MemoryEntry) : Bool :=
  a.ns == b.ns && a.key == b.key

/-- Modelled from the spec: the replacement performed by a second `store()`
on the same `(namespace, key)`: content, vector, tags and updatedAt are
replaced, the identity and creation time are kept (section 3). -/
def replaceWith (old e : MemoryEntry) : MemoryEntry :=
  { id := old.id
    ns := old.ns
    key := old.key
    content := e.content
    vector := e.vector
    tags := e.tags
    createdAt := old.createdAt
    updatedAt := e.updatedAt
    ttl := e.ttl }

namespace StructuredStore

/-- Modelled from the spec: `StructuredStore.store`, a durable upsert that
fails with a `ValidationError` when the namespace or key is missing
(section 4.1).  The store is the ordered list of live entries. -/
def store (entries : List MemoryEntry) (e : MemoryEntry) :
    Except String (List MemoryEntry) :=
  if e.ns = "" ∨ e.key = "" then
    Except.error "ValidationError: namespace and key are required"
  else if entries.any (fun x => sameIdentity x e) then
    Except.ok (entries.map (fun x => if sameIdentity x e then replaceWith x e else x))
  else
    Except.ok (entries ++ [e])

/-- Modelled from the spec: `queryStructured(filter)` returns the matching
entries in insertion-time order (section 4.1). -/
def queryStructured (f : StructuredFilter) (entries : List MemoryEntry) :
    List MemoryEntry :=
  entries.filter (fun e => matchesFilter f e)

end StructuredStore

/-- Modelled from the spec: squared euclidean distance between two vectors,
used to build a similarity in `[0,1]`. -/
def sqdist (u v : List Rat) : Rat :=
  (List.zipWith (fun a b => (a - b) * (a - b)) u v).sum

/-- Modelled from the spec: the spec requires `similarity ∈ [0,1]` but leaves
the metric abstract; we use `1 / (1 + squared distance)`, which lies in
`(0,1]` by construction. -/
def similarity (u v : List Rat) : Rat :=
  1 / (1 + sqdist u v)

/-- Descending-similarity order on scored hits. -/
def simGE (a b : MemoryEntry × Rat) : Prop := b.2 ≤ a.2

instance : DecidableRel simGE := fun a b => inferInstanceAs (Decidable (b.2 ≤ a.2))

instance : IsTotal (MemoryEntry × Rat) simGE := ⟨fun a b => le_total b.2 a.2⟩

instance : IsTrans (MemoryEntry × Rat) simGE := ⟨fun _ _ _ h1 h2 => le_trans h2 h1⟩

namespace SemanticStore

/-- Modelled from the spec: the semantic candidates for a query are the
entries of the requested namespace that carry a vector, each paired with its
similarity to the query vector (sections 4.2 and 4.5: every operation is
namespace scoped). -/
def candidates (ns : String) (q : List Rat) (entries : List MemoryEntry) :
    List (MemoryEntry × Rat) :=
  entries.filterMap (fun e =>
    if e.ns = ns then e.vector.map (fun v => (e, similarity q v)) else none)

/-- Modelled from the spec: `querySemantic(vector, k, threshold)` returns a
ranked list of `(entry, similarity)` descending by similarity, keeping only
hits with similarity at least the threshold and at most `k` results
(section 4.2).  The spec model ranks exhaustively; the approximate recall
bound of the HNSW graph is out of scope. -/
def querySemantic (ns : String) (q : List Rat) (k : Nat) (threshold : Rat)
    (entries : List MemoryEntry) : List (MemoryEntry × Rat) :=
  (((List.insertionSort simGE (candidates ns q entries)).filter
      (fun p => decide (threshold ≤ p.2))).take k)

/-- Modelled from the spec: the result of a semantic write (section 4.2):
`Skipped` when the entry has no vector, `Indexed` on success, `Failed` when
the semantic backend is unavailable (section 7, `BackendUnavailableError`). -/
inductive WriteOutcome where
  | Indexed
  | Skipped
  | Failed
deriving DecidableEq

/-- Modelled from the spec: `SemanticStore.store(entry)` inserts into the
index when the entry has a vector and the backend is available; it is a
no-op returning `Skipped` when the entry has no vector (section 4.2). -/
def store (available : Bool) (st : List MemoryEntry) (e : MemoryEntry) :
    WriteOutcome × List MemoryEntry :=
  match e.vector with
  | none => (WriteOutcome.Skipped, st)
  | some _ => if available then (WriteOutcome.Indexed, st ++ [e]) else (WriteOutcome.Failed, st)

end SemanticStore

/-- Modelled from the spec: section 4.3, the entry's storage mode after a
dual write: `hybrid` when both writes landed, `structured_only` when the
semantic half was skipped or failed. -/
inductive StorageMode where
  | hybrid
  | structured_only
deriving DecidableEq

/-- Modelled from the spec: the composite `WriteResult{structuredOk, semanticOk}`
of section 4.3. -/
structure WriteResult where
  structuredOk : Bool
  semanticOk : Bool
deriving DecidableEq

/-- Modelled from the spec: the coordinator owns both leaf states
(section 2). -/
structure HybridState where
  structured : List MemoryEntry
  semantic : List MemoryEntry
deriving DecidableEq

namespace HybridCoordinator

/-- Modelled from the spec: `HybridCoordinator.store` (section 4.3): the
structured write is required for overall success, the semantic write is
best-effort; a semantic failure degrades the entry to `structured_only` but
does not fail the call. -/
def store (available : Bool) (st : HybridState) (e : MemoryEntry) :
    Except String (WriteResult × StorageMode × HybridState) :=
  match StructuredStore.store st.structured e with
  | Except.error err => Except.error err
  | Except.ok sst =>
    let sem := SemanticStore.store available st.semantic e
    Except.ok
      ({ structuredOk := true, semanticOk := sem.1 = SemanticStore.WriteOutcome.Indexed },
       (if sem.1 = SemanticStore.WriteOutcome.Indexed then StorageMode.hybrid
        else StorageMode.structured_only),
       { structured := sst, semantic := sem.2 })

/-- Modelled from the spec: the `union` combine strategy of section 4.3:
dedupe by id across both result sets, score 1.0 for structured-only hits,
the similarity score for semantic hits, ordered by score descending. -/
def queryHybridUnion (f : StructuredFilter) (q : List Rat) (k : Nat)
    (threshold : Rat) (entries : List MemoryEntry) : List (MemoryEntry × Rat) :=
  let s := StructuredStore.queryStructured f entries
  let m := SemanticStore.querySemantic f.ns q k threshold entries
  let semIds := m.map (fun p => p.1.id)
  List.insertionSort simGE
    (m ++ (s.filter (fun e => !(semIds.contains e.id))).map (fun e => (e, (1 : Rat))))

/-- Modelled from the spec: the number of structured hits whose id also
appears among the semantic hits (the overlap of the two result sets). -/
def overlapCount (f : StructuredFilter) (q : List Rat) (k : Nat)
    (threshold : Rat) (entries : List MemoryEntry) : Nat :=
  let s := StructuredStore.queryStructured f entries
  let m := SemanticStore.querySemantic f.ns q k threshold entries
  (s.filter (fun e => (m.map (fun p => p.1.id)).contains e.id)).length

/-- Modelled from the spec: the `intersection` combine strategy of
section 4.3: keep only ids present in both result sets, scored by the
semantic similarity. -/
def queryHybridIntersection (f : StructuredFilter) (q : List Rat) (k : Nat)
    (threshold : Rat) (entries : List MemoryEntry) : List (MemoryEntry × Rat) :=
  let s := StructuredStore.queryStructured f entries
  let m := SemanticStore.querySemantic f.ns q k threshold entries
  m.filter (fun p => s.any (fun e => e.id == p.1.id))

end HybridCoordinator

/-- Modelled from the spec: well-formedness of a store (section 3): the
`(namespace, key)` pair identifies at most one entry, and ids are unique
within a namespace. -/
def WFStore (l : List MemoryEntry) : Prop :=
  l.Pairwise (fun a b => ¬(a.ns = b.ns ∧ a.key = b.key)) ∧
    l.Pairwise (fun a b => a.ns = b.ns → a.id ≠ b.id)

/-! ### Part 2: MCP registry client (src/v2/src/mcp/registry/mcp-registry-client-2025.ts)

Each client method is embedded as a pure action recording the remote
requests it issues and the log lines it emits. -/

/-- The `metadata` field of a registry entry. -/
structure RegistryMetadata where
  name : String
  description : String
  author : String
  homepage : Option String
  documentation : Option String
  repository : Option String
deriving DecidableEq

/-- The `health` field of a registry entry. -/
structure RegistryHealth where
  status : String
  last_check : String
  latency_ms : Nat
deriving DecidableEq

/-- MCP Registry entry (2025-11 format). -/
structure MCPRegistryEntry where
  server_id : String
  version : String
  endpoint : String
  tools : List String
  auth : String
  capabilities : List String
  metadata : RegistryMetadata
  health : RegistryHealth
deriving DecidableEq

/-- Registry search query. -/
structure RegistrySearchQuery where
  category : Option String
  tags : Option (List String)
  capabilities : Option (List String)
  limit : Option Nat
deriving DecidableEq

/-- The observable outcome of a registry client method: its return value,
the remote requests it performed, and the log lines it wrote. -/
structure ClientAction (α : Type) where
  value : α
  remoteRequests : List String
  logs : List String

namespace MCPRegistryClient

/-- `register()`: the security patch disables remote registration; the
method only logs and returns. -/
def register : ClientAction Unit :=
  { value := ()
    remoteRequests := []
    logs := ["[SECURITY] Registry registration is disabled by security patch"] }

/-- `updateMetadata(updates)`: the security patch disables the remote
metadata update; the method only logs and returns. -/
def updateMetadata {α : Type} (_updates : α) : ClientAction Unit :=
  { value := ()
    remoteRequests := []
    logs := ["[SECURITY] Registry metadata update is disabled by security patch"] }

/-- `reportHealth()`: the security patch disables remote health reporting;
the method returns immediately without logging. -/
def reportHealth : ClientAction Unit :=
  { value := (), remoteRequests := [], logs := [] }

/-- `searchServers(query)`: the security patch disables the remote search;
the method logs and returns the empty list. -/
def searchServers (_query : RegistrySearchQuery) : ClientAction (List MCPRegistryEntry) :=
  { value := []
    remoteRequests := []
    logs := ["[SECURITY] Registry search is disabled by security patch"] }

end MCPRegistryClient

/-! ### Part 2: security circuit breaker (src/unnamed/part_001)

`new URL(url)` is platform library code; it is embedded as a parameter
`parseURL : String → Option String` returning the hostname on success and
`none` when the string fails URL parsing. -/

/-- The domain whitelist `ALLOWED_DOMAINS`. -/
def ALLOWED_DOMAINS : List String := ["api.anthropic.com", "anthropic.com"]

/-- `isUrlAllowed(url)`: true when the URL parses and its hostname equals a
whitelisted domain or ends with a dot followed by one. -/
def isUrlAllowed (parseURL : String → Option String) (url : String) : Bool :=
  match parseURL url with
  | none => false
  | some hostname =>
      ALLOWED_DOMAINS.any (fun domain =>
        hostname == domain || hostname.endsWith ("." ++ domain))

/-- The `input` argument of `guardedFetch`: a string, a `URL` object, or a
`Request` object (carrying its `url` field). -/
inductive FetchInput where
  | str (s : String)
  | url (u : String)
  | request (requestUrl : String)
deriving DecidableEq

/-- The url extraction at the top of `guardedFetch`. -/
def extractUrl : FetchInput → String
  | FetchInput.str s => s
  | FetchInput.url u => u
  | FetchInput.request u => u

/-- `guardedFetch(input)`: throws when the extracted url is not allowed,
otherwise delegates to the platform fetch (embedded as a parameter). -/
def guardedFetch {α : Type} (parseURL : String → Option String)
    (fetchImpl : String → α) (input : FetchInput) : Except String α :=
  let url := extractUrl input
  if !(isUrlAllowed parseURL url) then
    Except.error
      ("[SECURITY CIRCUIT BREAKER] Blocked outbound request to non-whitelisted domain: "
        ++ url)
  else
    Except.ok (fetchImpl url)

/-! ### Part 2: update executor (src/unnamed/part_004)

`validateUpdate` lives in `validator.js`, which is not among the shown
sources; it is embedded as a function parameter.  History recording and
shell execution are embedded as explicit output lists. -/

/-- `ValidationResult` as consumed by the executor. -/
structure ValidationResult where
  valid : Bool
  incompatibilities : List String
deriving DecidableEq

/-- `UpdateCheckResult` (the fields the executor reads). -/
structure UpdateCheckResult where
  pkg : String
  currentVersion : String
  latestVersion : String
deriving DecidableEq

/-- `UpdateHistoryEntry`. -/
structure UpdateHistoryEntry where
  timestamp : String
  pkg : String
  fromVersion : String
  toVersion : String
  success : Bool
  error : Option String
  rollbackAvailable : Bool
deriving DecidableEq

/-- `UpdateExecutionResult`. -/
structure UpdateExecutionResult where
  success : Bool
  pkg : String
  version : String
  error : Option String
  validation : ValidationResult
deriving DecidableEq

/-- The security-block message thrown (and then returned as the error) by
the patched `executeUpdate`. -/
def autoUpdateBlockedMsg : String :=
  "[SECURITY] Auto-update execution blocked. Manual installation required."

/-- `executeUpdate(update, installedPackages, dryRun)`: validates, succeeds
only on a passing dry run, and otherwise hits the security patch that
replaced the `npm install` call with a thrown error.  Returns the execution
result, the history entries recorded, and the external commands executed
(the `execSync` call is disabled, so that list is always empty). -/
def executeUpdate
    (validateUpdate : String → String → String → List (String × String) → ValidationResult)
    (now : String) (update : UpdateCheckResult)
    (installedPackages : List (String × String)) (dryRun : Bool) :
    UpdateExecutionResult × List UpdateHistoryEntry × List String :=
  let validation :=
    validateUpdate update.pkg update.currentVersion update.latestVersion installedPackages
  if !validation.valid then
    ({ success := false
       pkg := update.pkg
       version := update.latestVersion
       error := some ("Validation failed: " ++ String.intercalate ", " validation.incompatibilities)
       validation := validation }, [], [])
  else if dryRun then
    ({ success := true
       pkg := update.pkg
       version := update.latestVersion
       error := none
       validation := validation }, [], [])
  else
    ({ success := false
       pkg := update.pkg
       version := update.latestVersion
       error := some autoUpdateBlockedMsg
       validation := validation },
     [{ timestamp := now
        pkg := update.pkg
        fromVersion := update.currentVersion
        toVersion := update.latestVersion
        success := false
        error := some autoUpdateBlockedMsg
        rollbackAvailable := false }],
     [])

/-- The result type of `rollbackUpdate`. -/
structure RollbackResult where
  success : Bool
  message : String
deriving DecidableEq

/-- `rollbackUpdate(packageName?)`: finds the last successful, rollbackable
history entry and then hits the security patch, so it always reports
failure. -/
def rollbackUpdate (history : List UpdateHistoryEntry) (packageName : Option String) :
    RollbackResult :=
  if history.isEmpty then
    { success := false, message := "No update history available" }
  else
    let rev := history.reverse
    let lastUpdate : Option UpdateHistoryEntry :=
      match packageName with
      | some p => rev.find? (fun h => h.pkg == p && h.success && h.rollbackAvailable)
      | none => rev.find? (fun h => h.success && h.rollbackAvailable)
    match lastUpdate with
    | none =>
        { success := false
          message :=
            match packageName with
            | some p => "No rollback available for " ++ p
            | none => "No rollback available" }
    | some _ =>
        { success := false
          message := "[SECURITY] Auto-rollback execution blocked. Manual installation required." }

/-! ### Part 2: IPFS upload module
(src/v3/@claude-flow/cli/src/transfer/ipfs/upload.ts)

`crypto.createHash('sha256')` is platform library code; it is embedded as a
parameter `sha256 : List Nat → List Nat` from byte buffers to digest bytes.
The process environment is embedded as an explicit record. -/

/-- The base32 alphabet used by `generateDemoCID`. -/
def base32Chars : String := "abcdefghijklmnopqrstuvwxyz234567"

/-- `generateDemoCID(content)`: sha256 the content, prepend the CIDv1
dag-pb/sha2-256 prefix bytes, then emit `bafybei` followed by 44 base32
characters drawn cyclically from the prefixed digest. -/
def generateDemoCID (sha256 : List Nat → List Nat) (content : List Nat) : String :=
  let hash := sha256 content
  let cidBytes := [0x01, 0x70, 0x12, 0x20] ++ hash
  let chars := (List.range 44).map (fun i =>
    let byte := cidBytes.getD (i % cidBytes.length) 0
    base32Chars.toList.getD (byte % 32) (Char.ofNat 97))
  "bafybei" ++ String.mk chars

/-- The pinning services recognized by the upload options. -/
inductive PinningService where
  | local
  | pinata
  | web3storage
deriving DecidableEq

/-- `IPFSUploadOptions` (the fields `uploadToIPFS` reads). -/
structure IPFSUploadOptions where
  pin : Bool
  pinningService : Option PinningService
  gateway : String
  name : String
deriving DecidableEq

/-- `IPFSUploadResult`. -/
structure IPFSUploadResult where
  cid : String
  size : Nat
  gateway : String
  pinnedAt : Option String
  url : String
deriving DecidableEq

/-- The environment variables read by the upload module. -/
structure IPFSEnv where
  ipfsApiUrl : Option String
  web3StorageToken : Option String
  w3Token : Option String
  ipfsToken : Option String
  pinataApiKey : Option String
deriving DecidableEq

/-- `getWeb3StorageToken()`: first of `WEB3_STORAGE_TOKEN`, `W3_TOKEN`,
`IPFS_TOKEN`. -/
def getWeb3StorageToken (env : IPFSEnv) : Option String :=
  (env.web3StorageToken.orElse (fun _ => env.w3Token)).orElse (fun _ => env.ipfsToken)

/-- `uploadToWeb3Storage`: disabled by the security patch, always throws. -/
def uploadToWeb3Storage (_content : List Nat) (_options : IPFSUploadOptions) :
    Except String IPFSUploadResult :=
  Except.error "[SECURITY] Remote upload to web3.storage is disabled by security patch. Use local file export instead."

/-- `uploadToPinata`: disabled by the security patch, always throws. -/
def uploadToPinata (_content : List Nat) (_options : IPFSUploadOptions) :
    Except String IPFSUploadResult :=
  Except.error "[SECURITY] Remote upload to Pinata is disabled by security patch. Use local file export instead."

/-- `uploadToLocalIPFS`: disabled by the security patch, always throws. -/
def uploadToLocalIPFS (_content : List Nat) (_options : IPFSUploadOptions) :
    Except String IPFSUploadResult :=
  Except.error "[SECURITY] Remote upload to IPFS node is disabled by security patch. Use local file export instead."

/-- `checkLocalIPFSNode()`: disabled by the security patch, always false. -/
def checkLocalIPFSNode : Bool := false

/-- `uploadToIPFS(content, options)`: tries the local node, Pinata and
web3.storage in the order of the source; every remote attempt is disabled
by the security patch, so each branch falls through to demo mode, which
reports `generateDemoCID content`. -/
def uploadToIPFS (sha256 : List Nat → List Nat) (env : IPFSEnv) (now : String)
    (content : List Nat) (options : IPFSUploadOptions) : IPFSUploadResult :=
  let web3Token := getWeb3StorageToken env
  let pinataKey := env.pinataApiKey
  let tryLocal : Option IPFSUploadResult :=
    if env.ipfsApiUrl.isSome || options.pinningService == some PinningService.local then
      if checkLocalIPFSNode then (uploadToLocalIPFS content options).toOption else none
    else none
  match tryLocal with
  | some r => r
  | none =>
    let tryPinata : Option IPFSUploadResult :=
      if options.pinningService == some PinningService.pinata
          || (pinataKey.isSome && web3Token.isNone) then
        (uploadToPinata content options).toOption
      else none
    match tryPinata with
    | some r => r
    | none =>
      let tryWeb3 : Option IPFSUploadResult :=
        if web3Token.isSome || options.pinningService == some PinningService.web3storage then
          (uploadToWeb3Storage content options).toOption
        else none
      match tryWeb3 with
      | some r => r
      | none =>
        let cid := generateDemoCID sha256 content
        { cid := cid
          size := content.length
          gateway := options.gateway
          pinnedAt := if options.pin then some now else none
          url := options.gateway ++ "/ipfs/" ++ cid }

/-! ### Sample data for concrete witnesses -/

/-- A sample entry in namespace `a`. -/
def entryA1 : MemoryEntry :=
  { id := 1, ns := "a", key := "k1", content := "x", vector := none,
    tags := [], createdAt := 0, updatedAt := 0, ttl := none }

/-- A sample entry in namespace `b`. -/
def entryB2 : MemoryEntry :=
  { id := 2, ns := "b", key := "k2", content := "y", vector := none,
    tags := [], createdAt := 0, updatedAt := 0, ttl := none }

/-- A sample entry carrying a vector. -/
def entryVec : MemoryEntry :=
  { id := 1, ns := "a", key := "k", content := "x", vector := some [0],
    tags := [], createdAt := 0, updatedAt := 0, ttl := none }

/-- A sample filter selecting namespace `a` without the wildcard. -/
def filterA : StructuredFilter :=
  { ns := "a", allNamespaces := false, keyPrefix := none, tags := none,
    createdAfter := none, createdBefore := none }

/-! ### Helper lemmas -/

theorem filter_eq_singleton_of_pairwise {α : Type} (p : α → Bool) :
    ∀ (l : List α), l.Pairwise (fun a b => ¬(p a = true ∧ p b = true)) →
      l.any p = true → ∃ x, l.filter p = [x] ∧ p x = true := by
  intro l
  induction l with
  | nil => simp
  | cons a t ih =>
    intro hp hany
    rcases List.pairwise_cons.mp hp with ⟨hhead, htail⟩
    by_cases hpa : p a = true
    · refine ⟨a, ?_, hpa⟩
      have hnil : t.filter p = [] :=
        List.filter_eq_nil_iff.mpr (fun b hb hpb => hhead b hb ⟨hpa, hpb⟩)
      simp [List.filter_cons, hpa, hnil]
    · have htany : t.any p = true := by
        rcases List.any_eq_true.mp hany with ⟨x, hx, hpx⟩
        cases hx with
        | head => exact absurd hpx hpa
        | tail _ hx => exact List.any_eq_true.mpr ⟨x, hx, hpx⟩
      rcases ih htail htany with ⟨x, hfx, hpx⟩
      refine ⟨x, ?_, hpx⟩
      simp [List.filter_cons, hpa, hfx]

theorem length_filter_add_length_filter_not {α : Type} (p : α → Bool) (l : List α) :
    (l.filter p).length + (l.filter (fun x => !(p x))).length = l.length := by
  induction l with
  | nil => rfl
  | cons a t ih =>
    by_cases h : p a = true <;> simp [List.filter_cons, h] <;> omega

theorem sqdist_nonneg (u : List Rat) : ∀ v : List Rat, 0 ≤ sqdist u v := by
  induction u with
  | nil => intro v; cases v <;> simp [sqdist]
  | cons a u ih =>
    intro v
    cases v with
    | nil => simp [sqdist]
    | cons b v =>
      have h1 := ih v
      have h2 : 0 ≤ (a - b) * (a - b) := mul_self_nonneg _
      simp only [sqdist, List.zipWith, List.sum_cons] at *
      linarith

theorem similarity_nonneg (u v : List Rat) : 0 ≤ similarity u v := by
  have h := sqdist_nonneg u v
  unfold similarity
  positivity

theorem similarity_le_one (u v : List Rat) : similarity u v ≤ 1 := by
  have h := sqdist_nonneg u v
  unfold similarity
  rw [div_le_one (by linarith)]
  linarith

theorem mem_querySemantic {ns : String} {q : List Rat} {k : Nat} {threshold : Rat}
    {entries : List MemoryEntry} {p : MemoryEntry × Rat}
    (hp : p ∈ SemanticStore.querySemantic ns q k threshold entries) :
    ∃ e v, e ∈ entries ∧ e.ns = ns ∧ e.vector = some v ∧
      p = (e, similarity q v) ∧ threshold ≤ p.2 := by
  have h1 : p ∈ (List.insertionSort simGE
      (SemanticStore.candidates ns q entries)).filter (fun r => decide (threshold ≤ r.2)) :=
    List.mem_of_mem_take hp
  rcases List.mem_filter.mp h1 with ⟨h2, h3⟩
  have hth : threshold ≤ p.2 := of_decide_eq_true h3
  have h4 : p ∈ SemanticStore.candidates ns q entries :=
    (List.mem_insertionSort simGE).mp h2
  rcases List.mem_filterMap.mp h4 with ⟨e, he, hfe⟩
  by_cases hns : e.ns = ns
  · rw [if_pos hns] at hfe
    cases hv : e.vector with
    | none => rw [hv] at hfe; simp at hfe
    | some v =>
      rw [hv] at hfe
      have hpe : (e, similarity q v) = p := by simpa using hfe
      exact ⟨e, v, he, hns, hv, hpe.symm, hth⟩
  · rw [if_neg hns] at hfe
    simp at hfe

theorem querySemantic_sorted (ns : String) (q : List Rat) (k : Nat) (threshold : Rat)
    (entries : List MemoryEntry) :
    List.Sorted simGE (SemanticStore.querySemantic ns q k threshold entries) := by
  have h1 : List.Sorted simGE
      (List.insertionSort simGE (SemanticStore.candidates ns q entries)) :=
    List.sorted_insertionSort simGE _
  have h2 : List.Sorted simGE
      ((List.insertionSort simGE (SemanticStore.candidates ns q entries)).filter
        (fun p => decide (threshold ≤ p.2))) :=
    h1.sublist (List.filter_sublist _)
  exact h2.sublist (List.take_sublist _ _)

theorem matchesFilter_ns {f : StructuredFilter} {e : MemoryEntry}
    (hw : f.allNamespaces = false) (hm : matchesFilter f e = true) : e.ns = f.ns := by
  simp only [matchesFilter, hw, Bool.false_or, Bool.and_eq_true, beq_iff_eq] at hm
  exact hm.1.1.1.1

theorem mem_queryStructured {f : StructuredFilter} {entries : List MemoryEntry}
    {e : MemoryEntry} (he : e ∈ StructuredStore.queryStructured f entries) :
    e ∈ entries ∧ matchesFilter f e = true := by
  have := List.mem_filter.mp he
  exact ⟨this.1, this.2⟩

/-! ### Claim theorems -/

/-- C4: queryStructured with namespace `A` and no wildcard never returns an
entry of a different namespace `B`; every returned entry lies in the
requested namespace. -/
theorem claim_C4 (A B : String) (f : StructuredFilter) (entries : List MemoryEntry)
    (hA : f.ns = A) (hw : f.allNamespaces = false) (hB : B ≠ A) :
    (∀ e ∈ StructuredStore.queryStructured f entries, e.ns = A) ∧
    (∀ e ∈ StructuredStore.queryStructured f entries, e.ns ≠ B) := by
  constructor
  · intro e he
    have hm := (mem_queryStructured he).2
    rw [← hA]
    exact matchesFilter_ns hw hm
  · intro e he
    have hm := (mem_queryStructured he).2
    have := matchesFilter_ns hw hm
    rw [this, hA]
    exact fun h => hB h.symm

/-- C4 witness: in a two-namespace store queried for namespace `a`, the
returned entry `entryA1` lies in namespace `a` and not in `b`. -/
theorem claim_C4_witness : entryA1.ns = "a" ∧ entryA1.ns ≠ "b" :=
  ⟨(claim_C4 "a" "b" filterA [entryA1, entryB2] rfl rfl (by decide)).1 entryA1 (by decide),
   (claim_C4 "a" "b" filterA [entryA1, entryB2] rfl rfl (by decide)).2 entryA1 (by decide)⟩

/-- C5: querySemantic returns a list ranked descending by similarity, every
similarity lies in `[0,1]`, every returned hit meets the threshold, and the
result size is at most `k`. -/
theorem claim_C5 (ns : String) (q : List Rat) (k : Nat) (threshold : Rat)
    (entries : List MemoryEntry) :
    List.Sorted simGE (SemanticStore.querySemantic ns q k threshold entries) ∧
    (SemanticStore.querySemantic ns q k threshold entries).length ≤ k ∧
    ∀ p ∈ SemanticStore.querySemantic ns q k threshold entries,
      threshold ≤ p.2 ∧ 0 ≤ p.2 ∧ p.2 ≤ 1 := by
  refine ⟨querySemantic_sorted ns q k threshold entries, List.length_take_le _ _, ?_⟩
  intro p hp
  rcases mem_querySemantic hp with ⟨e, v, _, _, _, hpe, hth⟩
  have h2 : p.2 = similarity q v := by rw [hpe]
  exact ⟨hth, h2 ▸ similarity_nonneg q v, h2 ▸ similarity_le_one q v⟩

/-- C5 witness: a concrete one-entry semantic query at threshold 0 and k = 1
returns the hit `(entryVec, 1)`, whose similarity is within bounds. -/
theorem claim_C5_witness :
    (0 : Rat) ≤ (entryVec, (1 : Rat)).2 ∧ 0 ≤ (entryVec, (1 : Rat)).2 ∧
      (entryVec, (1 : Rat)).2 ≤ 1 :=
  (claim_C5 "a" [0] 1 0 [entryVec]).2.2 (entryVec, 1) (by
    have h : SemanticStore.querySemantic "a" [0] 1 0 [entryVec] = [(entryVec, 1)] := by
      norm_num [SemanticStore.querySemantic, SemanticStore.candidates, entryVec,
        similarity, sqdist]
    rw [h]
    exact List.mem_singleton.mpr rfl)

/-- C7: the registry client is a disabled stub: searchServers returns the
empty list, and register, updateMetadata and reportHealth perform no remote
request. -/
theorem claim_C7 : ∀ (q : RegistrySearchQuery) (α : Type) (updates : α),
    (MCPRegistryClient.searchServers q).value = [] ∧
    (MCPRegistryClient.searchServers q).remoteRequests = [] ∧
    MCPRegistryClient.register.remoteRequests = [] ∧
    (MCPRegistryClient.updateMetadata updates).remoteRequests = [] ∧
    MCPRegistryClient.reportHealth.remoteRequests = [] := by
  intro q α u
  exact ⟨rfl, rfl, rfl, rfl, rfl⟩

/-- C8: isUrlAllowed returns true exactly when the URL parses with a
hostname equal to a whitelisted domain or ending in a dot and one; a parse
failure yields false; and guardedFetch errors exactly when the extracted
url is not allowed. -/
theorem claim_C8 (parseURL : String → Option String) (url : String) :
    (isUrlAllowed parseURL url = true ↔
      ∃ host, parseURL url = some host ∧
        ∃ d ∈ ALLOWED_DOMAINS, (host = d ∨ host.endsWith ("." ++ d) = true)) ∧
    (parseURL url = none → isUrlAllowed parseURL url = false) ∧
    (∀ (α : Type) (fetchImpl : String → α) (input : FetchInput),
      ((∃ msg, guardedFetch parseURL fetchImpl input = Except.error msg) ↔
        isUrlAllowed parseURL (extractUrl input) = false)) := by
  refine ⟨?_, ?_, ?_⟩
  · unfold isUrlAllowed
    cases hpu : parseURL url with
    | none => simp
    | some host =>
      simp only [List.any_eq_true, Bool.or_eq_true, beq_iff_eq, Option.some.injEq]
      constructor
      · rintro ⟨d, hd, hcase⟩
        exact ⟨host, rfl, d, hd, hcase⟩
      · rintro ⟨host2, hh, d, hd, hcase⟩
        cases hh
        exact ⟨d, hd, hcase⟩
  · intro h
    unfold isUrlAllowed
    rw [h]
  · intro α fetchImpl input
    unfold guardedFetch
    by_cases h : isUrlAllowed parseURL (extractUrl input) = true
    · simp [h]
    · simp only [Bool.not_eq_true] at h
      simp [h]

/-- C8 witness: a concrete allowed url passes the guard and a concrete
parse failure is rejected. -/
theorem claim_C8_witness :
    ((fun s => if s = "https://api.anthropic.com/v1" then some "api.anthropic.com" else none)
        ("nonsense") = none →
      isUrlAllowed
        (fun s => if s = "https://api.anthropic.com/v1" then some "api.anthropic.com" else none)
        "nonsense" = false) ∧
    ((∃ msg, guardedFetch
        (fun s => if s = "https://api.anthropic.com/v1" then some "api.anthropic.com" else none)
        (fun _ => (0 : Nat)) (FetchInput.str "nonsense") = Except.error msg) ↔
      isUrlAllowed
        (fun s => if s = "https://api.anthropic.com/v1" then some "api.anthropic.com" else none)
        (extractUrl (FetchInput.str "nonsense")) = false) :=
  ⟨(claim_C8 (fun s =>
      if s = "https://api.anthropic.com/v1" then some "api.anthropic.com" else none)
      "nonsense").2.1,
   (claim_C8 (fun s =>
      if s = "https://api.anthropic.com/v1" then some "api.anthropic.com" else none)
      "nonsense").2.2 Nat (fun _ => 0) (FetchInput.str "nonsense")⟩

theorem rollbackUpdate_success_false (history : List UpdateHistoryEntry)
    (packageName : Option String) :
    (rollbackUpdate history packageName).success = false := by
  unfold rollbackUpdate
  split
  · rfl
  · split <;> (dsimp only; split <;> rfl)

/-- C9: executeUpdate succeeds only on a passing dry run; without dryRun it
never runs npm install and always fails, reporting the validation error or
the security-block message; rollbackUpdate reports failure whenever a
rollback candidate exists. -/
theorem claim_C9
    (validateUpdate : String → String → String → List (String × String) → ValidationResult)
    (now : String) (update : UpdateCheckResult)
    (installedPackages : List (String × String)) (dryRun : Bool) :
    ((executeUpdate validateUpdate now update installedPackages dryRun).1.success = true ↔
      (dryRun = true ∧
        (validateUpdate update.pkg update.currentVersion update.latestVersion
          installedPackages).valid = true)) ∧
    (executeUpdate validateUpdate now update installedPackages dryRun).2.2 = [] ∧
    (dryRun = false →
      (executeUpdate validateUpdate now update installedPackages dryRun).1.success = false ∧
      (executeUpdate validateUpdate now update installedPackages dryRun).1.error =
        some (if (validateUpdate update.pkg update.currentVersion update.latestVersion
              installedPackages).valid then autoUpdateBlockedMsg
          else "Validation failed: " ++ String.intercalate ", "
            (validateUpdate update.pkg update.currentVersion update.latestVersion
              installedPackages).incompatibilities)) ∧
    (∀ (history : List UpdateHistoryEntry) (packageName : Option String),
      (∃ h ∈ history, h.success = true ∧ h.rollbackAvailable = true) →
      (rollbackUpdate history packageName).success = false) := by
  refine ⟨?_, ?_, ?_, fun history packageName _ =>
    rollbackUpdate_success_false history packageName⟩
  · unfold executeUpdate
    cases hv : (validateUpdate update.pkg update.currentVersion update.latestVersion
        installedPackages).valid <;> cases dryRun <;> simp [hv]
  · unfold executeUpdate
    cases hv : (validateUpdate update.pkg update.currentVersion update.latestVersion
        installedPackages).valid <;> cases dryRun <;> simp [hv]
  · intro hdr
    subst hdr
    unfold executeUpdate
    cases hv : (validateUpdate update.pkg update.currentVersion update.latestVersion
        installedPackages).valid <;> simp [hv]

/-- C9 witness: with a passing validator and dryRun off, a concrete update
is refused, and a concrete history with a rollback candidate still yields a
failed rollback. -/
theorem claim_C9_witness :
    (executeUpdate (fun _ _ _ _ => { valid := true, incompatibilities := [] }) "t"
        { pkg := "p", currentVersion := "1", latestVersion := "2" } [] false).1.success
        = false ∧
    (rollbackUpdate
        [{ timestamp := "t", pkg := "p", fromVersion := "1", toVersion := "2",
           success := true, error := none, rollbackAvailable := true }] none).success
        = false :=
  ⟨((claim_C9 (fun _ _ _ _ => { valid := true, incompatibilities := [] }) "t"
      { pkg := "p", currentVersion := "1", latestVersion := "2" } [] false).2.2.1 rfl).1,
   (claim_C9 (fun _ _ _ _ => { valid := true, incompatibilities := [] }) "t"
      { pkg := "p", currentVersion := "1", latestVersion := "2" } [] false).2.2.2
      [{ timestamp := "t", pkg := "p", fromVersion := "1", toVersion := "2",
         success := true, error := none, rollbackAvailable := true }] none
      ⟨_, List.mem_singleton.mpr rfl, rfl, rfl⟩⟩

theorem generateDemoCID_eq (sha256 : List Nat → List Nat) (content : List Nat) :
    generateDemoCID sha256 content =
      "bafybei" ++ String.mk ((List.range 44).map (fun i =>
        base32Chars.toList.getD
          ((([0x01, 0x70, 0x12, 0x20] ++ sha256 content).getD
            (i % ([0x01, 0x70, 0x12, 0x20] ++ sha256 content).length) 0) % 32)
          (Char.ofNat 97))) := rfl

theorem uploadToIPFS_cid (sha256 : List Nat → List Nat) (env : IPFSEnv) (now : String)
    (content : List Nat) (options : IPFSUploadOptions) :
    (uploadToIPFS sha256 env now content options).cid = generateDemoCID sha256 content := by
  unfold uploadToIPFS
  simp [checkLocalIPFSNode, uploadToPinata, uploadToWeb3Storage, uploadToLocalIPFS,
    Except.toOption]

/-- C10: generateDemoCID is deterministic on byte-equal buffers, always
yields `bafybei` followed by 44 characters (total length 51), and any two
uploadToIPFS calls on equal content report the same demo cid. -/
theorem claim_C10 (sha256 : List Nat → List Nat) (c1 c2 : List Nat) (heq : c1 = c2) :
    generateDemoCID sha256 c1 = generateDemoCID sha256 c2 ∧
    (∃ rest : String, generateDemoCID sha256 c1 = "bafybei" ++ rest ∧ rest.length = 44) ∧
    (generateDemoCID sha256 c1).length = 51 ∧
    (∀ (env1 env2 : IPFSEnv) (now1 now2 : String) (o1 o2 : IPFSUploadOptions),
      (uploadToIPFS sha256 env1 now1 c1 o1).cid = (uploadToIPFS sha256 env2 now2 c2 o2).cid) := by
  subst heq
  have hrest : (String.mk ((List.range 44).map (fun i =>
      base32Chars.toList.getD
        ((([0x01, 0x70, 0x12, 0x20] ++ sha256 c1).getD
          (i % ([0x01, 0x70, 0x12, 0x20] ++ sha256 c1).length) 0) % 32)
        (Char.ofNat 97)))).length = 44 := by
    show ((List.range 44).map _).length = 44
    simp
  refine ⟨rfl, ⟨_, generateDemoCID_eq sha256 c1, hrest⟩, ?_, ?_⟩
  · rw [generateDemoCID_eq, String.length_append, hrest]
    rfl
  · intro env1 env2 now1 now2 o1 o2
    rw [uploadToIPFS_cid, uploadToIPFS_cid]

/-- C10 witness: at a concrete 32-byte digest function and concrete equal
buffers, the demo CID has length 51 and two uploads agree on the cid. -/
theorem claim_C10_witness :
    (generateDemoCID (fun _ => List.replicate 32 7) [1, 2, 3]).length = 51 ∧
    (uploadToIPFS (fun _ => List.replicate 32 7)
        { ipfsApiUrl := none, web3StorageToken := none, w3Token := none,
          ipfsToken := none, pinataApiKey := none } "t1" [1, 2, 3]
        { pin := true, pinningService := none, gateway := "local", name := "pattern" }).cid =
      (uploadToIPFS (fun _ => List.replicate 32 7)
        { ipfsApiUrl := none, web3StorageToken := none, w3Token := none,
          ipfsToken := none, pinataApiKey := none } "t2" [1, 2, 3]
        { pin := false, pinningService := none, gateway := "local", name := "pattern" }).cid :=
  ⟨(claim_C10 (fun _ => List.replicate 32 7) [1, 2, 3] [1, 2, 3] rfl).2.2.1,
   (claim_C10 (fun _ => List.replicate 32 7) [1, 2, 3] [1, 2, 3] rfl).2.2.2
     { ipfsApiUrl := none, web3StorageToken := none, w3Token := none,
       ipfsToken := none, pinataApiKey := none }
     { ipfsApiUrl := none, web3StorageToken := none, w3Token := none,
       ipfsToken := none, pinataApiKey := none } "t1" "t2"
     { pin := true, pinningService := none, gateway := "local", name := "pattern" }
     { pin := false, pinningService := none, gateway := "local", name := "pattern" }⟩

/-- C6: the coordinator store succeeds exactly when the structured write
succeeds; a semantic backend failure still yields a successful call with
the entry degraded to structured_only; and a semantic store on a vectorless
entry is a no-op returning Skipped. -/
theorem claim_C6 (available : Bool) (st : HybridState) (e : MemoryEntry) :
    ((∃ r, HybridCoordinator.store available st e = Except.ok r) ↔
      (∃ l, StructuredStore.store st.structured e = Except.ok l)) ∧
    (∀ l, StructuredStore.store st.structured e = Except.ok l →
      available = false → e.vector.isSome = true →
      ∃ st2, HybridCoordinator.store available st e =
        Except.ok ({ structuredOk := true, semanticOk := false },
          StorageMode.structured_only, st2)) ∧
    (e.vector = none →
      SemanticStore.store available st.semantic e =
        (SemanticStore.WriteOutcome.Skipped, st.semantic)) := by
  refine ⟨?_, ?_, ?_⟩
  · constructor
    · rintro ⟨r, hr⟩
      cases hs : StructuredStore.store st.structured e with
      | error err =>
        unfold HybridCoordinator.store at hr
        rw [hs] at hr
        simp at hr
      | ok l => exact ⟨l, rfl⟩
    · rintro ⟨l, hl⟩
      unfold HybridCoordinator.store
      rw [hl]
      exact ⟨_, rfl⟩
  · intro l hl hav hv
    subst hav
    cases he : e.vector with
    | none => rw [he] at hv; simp at hv
    | some v =>
      have hsem : SemanticStore.store false st.semantic e =
          (SemanticStore.WriteOutcome.Failed, st.semantic) := by
        unfold SemanticStore.store
        rw [he]
        simp
      refine ⟨{ structured := l, semantic := st.semantic }, ?_⟩
      unfold HybridCoordinator.store
      rw [hl]
      simp [hsem]
  · intro he
    unfold SemanticStore.store
    rw [he]

/-- C6 witness: with the semantic backend unavailable and a concrete
vectorless entry, the coordinator store still succeeds whenever the
structured write does, and the semantic store is a Skipped no-op. -/
theorem claim_C6_witness :
    ((∃ r, HybridCoordinator.store false { structured := [], semantic := [] } entryA1 =
        Except.ok r) ↔
      (∃ l, StructuredStore.store [] entryA1 = Except.ok l)) ∧
    (SemanticStore.store false ([] : List MemoryEntry) entryA1 =
      (SemanticStore.WriteOutcome.Skipped, [])) :=
  ⟨(claim_C6 false { structured := [], semantic := [] } entryA1).1,
   (claim_C6 false { structured := [], semantic := [] } entryA1).2.2 rfl⟩

theorem store_filter_singleton (entries : List MemoryEntry) (e : MemoryEntry)
    (hP : entries.Pairwise (fun a b => ¬(a.ns = b.ns ∧ a.key = b.key)))
    (l2 : List MemoryEntry) (hok : StructuredStore.store entries e = Except.ok l2) :
    ∃ w, l2.filter (fun x => sameIdentity x e) = [w] ∧ w.ns = e.ns ∧ w.key = e.key ∧
      w.content = e.content ∧ w.vector = e.vector ∧ w.tags = e.tags ∧
      w.updatedAt = e.updatedAt := by
  unfold StructuredStore.store at hok
  by_cases hval : e.ns = "" ∨ e.key = ""
  · rw [if_pos hval] at hok
    exact absurd hok (by simp)
  · rw [if_neg hval] at hok
    by_cases hany : entries.any (fun x => sameIdentity x e) = true
    · rw [if_pos hany] at hok
      have hl2 := (Except.ok.inj hok).symm
      subst hl2
      rw [List.filter_map]
      have hcong : ∀ x ∈ entries,
          ((fun x => sameIdentity x e) ∘
            (fun x => if sameIdentity x e then replaceWith x e else x)) x
            = sameIdentity x e := by
        intro x _
        simp only [Function.comp]
        by_cases hx : sameIdentity x e = true
        · rw [if_pos hx, hx]
          simpa [sameIdentity, replaceWith] using hx
        · rw [if_neg hx]
      rw [List.filter_congr hcong]
      have hPP : entries.Pairwise (fun a b =>
          ¬(sameIdentity a e = true ∧ sameIdentity b e = true)) := by
        refine hP.imp ?_
        intro a b hab hcon
        rcases hcon with ⟨hpa, hpb⟩
        simp [sameIdentity] at hpa hpb
        exact hab ⟨hpa.1.trans hpb.1.symm, hpa.2.trans hpb.2.symm⟩
      obtain ⟨x, hfx, hpx⟩ :=
        filter_eq_singleton_of_pairwise (fun x => sameIdentity x e) entries hPP hany
      rw [hfx]
      have hpx2 : x.ns = e.ns ∧ x.key = e.key := by
        simpa [sameIdentity] using hpx
      exact ⟨replaceWith x e, by simp [hpx], hpx2.1, hpx2.2, rfl, rfl, rfl, rfl⟩
    · rw [if_neg hany] at hok
      have hl2 := (Except.ok.inj hok).symm
      subst hl2
      rw [List.filter_append]
      have hnil : entries.filter (fun x => sameIdentity x e) = [] :=
        List.filter_eq_nil_iff.mpr (fun b hb hpb => hany (List.any_eq_true.mpr ⟨b, hb, hpb⟩))
      have hself : sameIdentity e e = true := by simp [sameIdentity]
      rw [hnil]
      exact ⟨e, by simp [List.filter_cons, hself], rfl, rfl, rfl, rfl, rfl, rfl⟩

theorem store_pairwise (entries : List MemoryEntry) (e : MemoryEntry)
    (l2 : List MemoryEntry)
    (hP : entries.Pairwise (fun a b => ¬(a.ns = b.ns ∧ a.key = b.key)))
    (hok : StructuredStore.store entries e = Except.ok l2) :
    l2.Pairwise (fun a b => ¬(a.ns = b.ns ∧ a.key = b.key)) := by
  unfold StructuredStore.store at hok
  by_cases hval : e.ns = "" ∨ e.key = ""
  · rw [if_pos hval] at hok
    exact absurd hok (by simp)
  · rw [if_neg hval] at hok
    by_cases hany : entries.any (fun x => sameIdentity x e) = true
    · rw [if_pos hany] at hok
      have hl2 := (Except.ok.inj hok).symm
      subst hl2
      rw [List.pairwise_map]
      refine hP.imp ?_
      intro a b hab hcon
      apply hab
      have hga : ∀ x : MemoryEntry,
          (if sameIdentity x e then replaceWith x e else x).ns = x.ns ∧
          (if sameIdentity x e then replaceWith x e else x).key = x.key := by
        intro x
        by_cases hx : sameIdentity x e = true
        · rw [if_pos hx]
          exact ⟨rfl, rfl⟩
        · rw [if_neg hx]
          exact ⟨rfl, rfl⟩
      rcases hga a with ⟨ha1, ha2⟩
      rcases hga b with ⟨hb1, hb2⟩
      rw [ha1, ha2, hb1, hb2] at hcon
      exact hcon
    · rw [if_neg hany] at hok
      have hl2 := (Except.ok.inj hok).symm
      subst hl2
      refine List.pairwise_append.mpr ⟨hP, List.pairwise_singleton _ _, ?_⟩
      intro a ha b hb
      have hb2 : b = e := List.mem_singleton.mp hb
      subst hb2
      intro hcon
      have hsa : sameIdentity a b = true := by simp [sameIdentity, hcon.1, hcon.2]
      exact hany (List.any_eq_true.mpr ⟨a, ha, hsa⟩)

/-- C1: storing the same (namespace, key) twice with different content
leaves exactly one entry under that pair, and it bears the second call's
content, vector, tags and updatedAt. -/
theorem claim_C1 (entries : List MemoryEntry) (e1 e2 : MemoryEntry)
    (hWF : WFStore entries) (hns : e1.ns = e2.ns) (hkey : e1.key = e2.key)
    (hns2 : e2.ns ≠ "") (hkey2 : e2.key ≠ "") :
    ∃ l1 l2 w,
      StructuredStore.store entries e1 = Except.ok l1 ∧
      StructuredStore.store l1 e2 = Except.ok l2 ∧
      l2.filter (fun x => sameIdentity x e2) = [w] ∧
      w.content = e2.content ∧ w.vector = e2.vector ∧
      w.tags = e2.tags ∧ w.updatedAt = e2.updatedAt := by
  have hval1 : ¬(e1.ns = "" ∨ e1.key = "") := by
    rw [hns, hkey]
    rintro (h | h)
    · exact hns2 h
    · exact hkey2 h
  have hval2 : ¬(e2.ns = "" ∨ e2.key = "") := by
    rintro (h | h)
    · exact hns2 h
    · exact hkey2 h
  have h1 : ∃ l1, StructuredStore.store entries e1 = Except.ok l1 := by
    unfold StructuredStore.store
    rw [if_neg hval1]
    split
    · exact ⟨_, rfl⟩
    · exact ⟨_, rfl⟩
  obtain ⟨l1, h1⟩ := h1
  have hP1 := store_pairwise entries e1 l1 hWF.1 h1
  have h2 : ∃ l2, StructuredStore.store l1 e2 = Except.ok l2 := by
    unfold StructuredStore.store
    rw [if_neg hval2]
    split
    · exact ⟨_, rfl⟩
    · exact ⟨_, rfl⟩
  obtain ⟨l2, h2⟩ := h2
  obtain ⟨w, hfw, _, _, hc, hv, ht, hu⟩ := store_filter_singleton l1 e2 hP1 l2 h2
  exact ⟨l1, l2, w, h1, h2, hfw, hc, hv, ht, hu⟩

/-- C1 witness: storing key `k1` of namespace `a` twice into the empty
store leaves one entry carrying the second content and updatedAt. -/
theorem claim_C1_witness :
    ∃ l1 l2 w,
      StructuredStore.store [] entryA1 = Except.ok l1 ∧
      StructuredStore.store l1
        { id := 9, ns := "a", key := "k1", content := "second", vector := none,
          tags := ["t"], createdAt := 5, updatedAt := 6, ttl := none } = Except.ok l2 ∧
      l2.filter (fun x => sameIdentity x
        { id := 9, ns := "a", key := "k1", content := "second", vector := none,
          tags := ["t"], createdAt := 5, updatedAt := 6, ttl := none }) = [w] ∧
      w.content = "second" ∧ w.vector = none ∧ w.tags = ["t"] ∧ w.updatedAt = 6 :=
  claim_C1 [] entryA1
    { id := 9, ns := "a", key := "k1", content := "second", vector := none,
      tags := ["t"], createdAt := 5, updatedAt := 6, ttl := none }
    ⟨List.Pairwise.nil, List.Pairwise.nil⟩ rfl rfl (by decide) (by decide)

theorem union_length (s : List MemoryEntry) (m : List (MemoryEntry × Rat)) :
    (List.insertionSort simGE
      (m ++ (s.filter (fun e => !((m.map (fun p => p.1.id)).contains e.id))).map
        (fun e => (e, (1 : Rat))))).length =
      s.length + m.length -
        (s.filter (fun e => (m.map (fun p => p.1.id)).contains e.id)).length := by
  rw [List.length_insertionSort, List.length_append, List.length_map]
  have h := length_filter_add_length_filter_not
    (fun e => (m.map (fun p => p.1.id)).contains e.id) s
  have h2 : (s.filter (fun e => (m.map (fun p => p.1.id)).contains e.id)).length ≤ s.length :=
    List.length_filter_le _ s
  omega

theorem queryStructured_id_pairwise (f : StructuredFilter) (entries : List MemoryEntry)
    (hWF : WFStore entries) (hw : f.allNamespaces = false) :
    (StructuredStore.queryStructured f entries).Pairwise (fun a b => a.id ≠ b.id) := by
  have h1 : (StructuredStore.queryStructured f entries).Pairwise
      (fun a b => a.ns = b.ns → a.id ≠ b.id) :=
    hWF.2.sublist (List.filter_sublist _)
  refine h1.imp_of_mem ?_
  intro a b ha hb hab
  have hans : a.ns = f.ns := matchesFilter_ns hw (mem_queryStructured ha).2
  have hbns : b.ns = f.ns := matchesFilter_ns hw (mem_queryStructured hb).2
  exact hab (hans.trans hbns.symm)

theorem querySemantic_id_pairwise (ns : String) (q : List Rat) (k : Nat) (threshold : Rat)
    (entries : List MemoryEntry)
    (hWF2 : entries.Pairwise (fun a b => a.ns = b.ns → a.id ≠ b.id)) :
    (SemanticStore.querySemantic ns q k threshold entries).Pairwise
      (fun p r => p.1.id ≠ r.1.id) := by
  have hcand : (SemanticStore.candidates ns q entries).Pairwise
      (fun p r => p.1.id ≠ r.1.id) := by
    unfold SemanticStore.candidates
    refine List.pairwise_filterMap.mpr (hWF2.imp ?_)
    intro a b hab x hx y hy
    have hxa : x.1 = a ∧ a.ns = ns := by
      by_cases hans : a.ns = ns
      · rw [if_pos hans] at hx
        cases hva : a.vector with
        | none => rw [hva] at hx; simp at hx
        | some v =>
          rw [hva] at hx
          have hx2 : (a, similarity q v) = x := by simpa using hx
          exact ⟨by rw [← hx2], hans⟩
      · rw [if_neg hans] at hx
        simp at hx
    have hyb : y.1 = b ∧ b.ns = ns := by
      by_cases hbns : b.ns = ns
      · rw [if_pos hbns] at hy
        cases hvb : b.vector with
        | none => rw [hvb] at hy; simp at hy
        | some v =>
          rw [hvb] at hy
          have hy2 : (b, similarity q v) = y := by simpa using hy
          exact ⟨by rw [← hy2], hbns⟩
      · rw [if_neg hbns] at hy
        simp at hy
    rw [hxa.1, hyb.1]
    exact hab (hxa.2.trans hyb.2.symm)
  have hperm : List.Perm (List.insertionSort simGE (SemanticStore.candidates ns q entries))
      (SemanticStore.candidates ns q entries) := List.perm_insertionSort simGE _
  have hsort : (List.insertionSort simGE (SemanticStore.candidates ns q entries)).Pairwise
      (fun p r => p.1.id ≠ r.1.id) :=
    (hperm.pairwise_iff (fun hab => Ne.symm hab)).mpr hcand
  have hfil : ((List.insertionSort simGE (SemanticStore.candidates ns q entries)).filter
      (fun p => decide (threshold ≤ p.2))).Pairwise (fun p r => p.1.id ≠ r.1.id) :=
    hsort.sublist (List.filter_sublist _)
  exact hfil.sublist (List.take_sublist _ _)

/-- C2: the union combine strategy is sorted descending by score, its
cardinality is the structured count plus the semantic count minus the
overlap (ids being duplicate-free in both result sets), and every hit is
either a semantic hit with its similarity or a structured-only hit scored
1.0. -/
theorem claim_C2 (entries : List MemoryEntry) (f : StructuredFilter) (q : List Rat)
    (k : Nat) (threshold : Rat) (hWF : WFStore entries) (hw : f.allNamespaces = false) :
    List.Sorted simGE (HybridCoordinator.queryHybridUnion f q k threshold entries) ∧
    (HybridCoordinator.queryHybridUnion f q k threshold entries).length =
      (StructuredStore.queryStructured f entries).length +
        (SemanticStore.querySemantic f.ns q k threshold entries).length -
        HybridCoordinator.overlapCount f q k threshold entries ∧
    ((StructuredStore.queryStructured f entries).map (fun e => e.id)).Nodup ∧
    ((SemanticStore.querySemantic f.ns q k threshold entries).map (fun p => p.1.id)).Nodup ∧
    (∀ p ∈ HybridCoordinator.queryHybridUnion f q k threshold entries,
      p ∈ SemanticStore.querySemantic f.ns q k threshold entries ∨
      (p.1 ∈ StructuredStore.queryStructured f entries ∧ p.2 = 1 ∧
        ¬(p.1.id ∈ (SemanticStore.querySemantic f.ns q k threshold entries).map
          (fun r => r.1.id)))) := by
  refine ⟨?_, ?_, ?_, ?_, ?_⟩
  · exact List.sorted_insertionSort simGE _
  · exact union_length (StructuredStore.queryStructured f entries)
      (SemanticStore.querySemantic f.ns q k threshold entries)
  · exact List.pairwise_map.mpr (queryStructured_id_pairwise f entries hWF hw)
  · exact List.pairwise_map.mpr
      (querySemantic_id_pairwise f.ns q k threshold entries hWF.2)
  · intro p hp
    unfold HybridCoordinator.queryHybridUnion at hp
    rw [List.mem_insertionSort] at hp
    rcases List.mem_append.mp hp with h | h
    · exact Or.inl h
    · right
      rcases List.mem_map.mp h with ⟨e, he, hpe⟩
      rcases List.mem_filter.mp he with ⟨hes, hnc⟩
      have hp1 : p.1 = e := by rw [← hpe]
      have hp2 : p.2 = 1 := by rw [← hpe]
      refine ⟨hp1 ▸ hes, hp2, ?_⟩
      rw [hp1]
      simpa using hnc

/-- C2 witness: a concrete store where the single structured hit also
appears among the semantic hits: the union has one element and the
cardinality identity holds. -/
theorem claim_C2_witness :
    (HybridCoordinator.queryHybridUnion filterA [0] 1 0 [entryVec]).length =
      (StructuredStore.queryStructured filterA [entryVec]).length +
        (SemanticStore.querySemantic filterA.ns [0] 1 0 [entryVec]).length -
        HybridCoordinator.overlapCount filterA [0] 1 0 [entryVec] :=
  (claim_C2 [entryVec] filterA [0] 1 0
    ⟨List.Pairwise.cons (by simp) List.Pairwise.nil,
     List.Pairwise.cons (by simp) List.Pairwise.nil⟩ rfl).2.1

/-- C3: every intersection hit belongs to both the semantic-only and the
structured-only result sets for the same spec and is scored by the
semantic similarity. -/
theorem claim_C3 (entries : List MemoryEntry) (f : StructuredFilter) (q : List Rat)
    (k : Nat) (threshold : Rat) (hWF : WFStore entries) (hw : f.allNamespaces = false) :
    ∀ p ∈ HybridCoordinator.queryHybridIntersection f q k threshold entries,
      p ∈ SemanticStore.querySemantic f.ns q k threshold entries ∧
      p.1 ∈ StructuredStore.queryStructured f entries ∧
      ∃ v, p.1.vector = some v ∧ p.2 = similarity q v := by
  intro p hp
  unfold HybridCoordinator.queryHybridIntersection at hp
  rcases List.mem_filter.mp hp with ⟨hm, hany⟩
  rcases mem_querySemantic hm with ⟨e, v, hee, hens, hev, hpe, _⟩
  rcases List.any_eq_true.mp hany with ⟨e2, he2, hid⟩
  have hid2 : e2.id = p.1.id := by simpa using hid
  rcases mem_queryStructured he2 with ⟨he2e, hm2⟩
  have he2ns : e2.ns = f.ns := matchesFilter_ns hw hm2
  have hp1 : p.1 = e := by rw [hpe]
  have hsym : Symmetric (fun a b : MemoryEntry => a.ns = b.ns → a.id ≠ b.id) := by
    intro a b hab hba hidq
    exact hab hba.symm hidq.symm
  by_cases heq : p.1 = e2
  · exact ⟨hm, heq ▸ he2, ⟨v, hp1 ▸ hev, by rw [hpe]⟩⟩
  · exfalso
    have hmem1 : p.1 ∈ entries := hp1 ▸ hee
    have hne := hWF.2.forall hsym hmem1 he2e heq
    have hnseq : p.1.ns = e2.ns := by rw [hp1, hens, he2ns]
    exact hne hnseq hid2.symm

/-- C3 witness: a concrete one-entry store where the intersection hit
belongs to both result sets and carries the semantic similarity. -/
theorem claim_C3_witness :
    (entryVec, (1 : Rat)) ∈ SemanticStore.querySemantic filterA.ns [0] 1 0 [entryVec] ∧
    (entryVec, (1 : Rat)).1 ∈ StructuredStore.queryStructured filterA [entryVec] ∧
    ∃ v, (entryVec, (1 : Rat)).1.vector = some v ∧
      (entryVec, (1 : Rat)).2 = similarity [0] v :=
  claim_C3 [entryVec] filterA [0] 1 0
    ⟨List.Pairwise.cons (by simp) List.Pairwise.nil,
     List.Pairwise.cons (by simp) List.Pairwise.nil⟩ rfl
    (entryVec, 1) (by
      have h : SemanticStore.querySemantic filterA.ns [0] 1 0 [entryVec] =
          [(entryVec, 1)] := by
        norm_num [SemanticStore.querySemantic, SemanticStore.candidates, entryVec,
          filterA, similarity, sqdist]
      unfold HybridCoordinator.queryHybridIntersection
      rw [h]
      simp [StructuredStore.queryStructured, matchesFilter, entryVec, filterA])

end ClaudeFlow
